import Mathlib

/-!
# Verification of the scores-tracker core

Shallow embedding of the score-tracking application's core logic:
the pure helpers of `src/lib/utils/game.ts` and the repository
operations of `src/lib/storage/local-storage-repository.ts`.

Modelling conventions:
* JavaScript numbers that the code has already validated as finite are
  modelled as rationals (`ℚ`); a possibly-non-finite number (`NaN`,
  `±Infinity`, or a missing record field coerced through `Number`)
  is modelled as `Option ℚ` with `none` for the non-finite case.
  `Number.isInteger q` becomes `q.den = 1`.
* A JavaScript object used as a string-keyed record is modelled as an
  association list (`StrMap`).  Assignment `o[k] = v` overwrites the
  existing binding in place (keeping its position) or appends a new
  binding, exactly as JS objects preserve insertion order.
* `localStorage` is abstracted away: each repository operation is a pure
  function from the current persisted snapshot (`AppData`) to a pair of
  the operation's outcome (`Except RepoError …`, mirroring `throw` /
  `return`) and the snapshot that is persisted after the call.  The
  source calls `writeData` exactly once, after all validation, so an
  operation that throws leaves the stored snapshot untouched; the
  returned snapshot component makes that observable.
* `createId` and `new Date().toISOString()` are nondeterministic inputs;
  they are passed in as explicit parameters (`mkId`, `now`).
-/

/-- JS string-keyed record with values of type `α`, in insertion order. -/
abbrev StrMap (α : Type) := List (String × α)

/-- JS object assignment `m[k] = v`: overwrite the binding in place if the
key is present, otherwise append it. -/
def setKey {α : Type} : StrMap α → String → α → StrMap α
  | [], k, v => [(k, v)]
  | (k', v') :: rest, k, v =>
    if k' = k then (k, v) :: rest else (k', v') :: setKey rest k v

/-- JS object read `m[k]`: the value of the first binding for `k`. -/
def getKey {α : Type} : StrMap α → String → Option α
  | [], _ => none
  | (k', v) :: rest, k => if k' = k then some v else getKey rest k

/-- `mode` of a round: `'add' | 'set'`. -/
inductive Mode where
  | add
  | set
  deriving DecidableEq, Repr

/-- `GameType` (also used for `Round.type`): `'classic' | 'podrida'`. -/
inductive GameType where
  | classic
  | podrida
  deriving DecidableEq, Repr

/-- `GameStatus`: `'open' | 'finished'` (`open` is a Lean keyword, hence
`opened`). -/
inductive GameStatus where
  | opened
  | finished
  deriving DecidableEq, Repr

/-- `Player` from `lib/types.ts`. -/
structure Player where
  id : String
  name : String
  color : Option String
  deriving DecidableEq, Repr

/-- `RoundEntry` from `lib/types.ts`. -/
structure RoundEntry where
  playerId : String
  delta : ℚ
  totalAfter : ℚ
  deriving DecidableEq, Repr

/-- `Round` from `lib/types.ts`.  A missing `type` field behaves as
`classic` in every use (`round.type === 'podrida'` comparisons), so
`type` is total here; `cardsCount` and `betsByPlayerId` are only
populated on podrida rounds (`betsByPlayerId = []` on classic rounds). -/
structure Round where
  id : String
  createdAt : String
  mode : Mode
  entries : List RoundEntry
  type : GameType
  cardsCount : Option ℚ
  betsByPlayerId : StrMap ℚ
  deriving DecidableEq, Repr

/-- `PodridaState` from `lib/types.ts`. -/
structure PodridaState where
  pendingBetsByPlayerId : StrMap ℚ
  deriving DecidableEq, Repr

/-- `Game` from `lib/types.ts`. -/
structure Game where
  id : String
  name : Option String
  type : GameType
  players : List Player
  rounds : List Round
  status : GameStatus
  createdAt : String
  updatedAt : String
  finishedAt : Option String
  podridaState : Option PodridaState
  deriving DecidableEq, Repr

/-- `RecentPlayer` from `lib/types.ts`. -/
structure RecentPlayer where
  id : String
  name : String
  color : Option String
  lastUsedAt : String
  deriving DecidableEq, Repr

/-- `AppData`: the full persisted snapshot. -/
structure AppData where
  games : List Game
  recentPlayers : List RecentPlayer
  deriving DecidableEq, Repr

/-! ## `src/lib/utils/game.ts` -/

/-- `getGameType` from `game.ts` (the `type` field is total here, so the
`'podrida' ? podrida : classic` coercion is the identity). -/
def getGameType (game : Game) : GameType :=
  if game.type = GameType.podrida then GameType.podrida else GameType.classic

/-- `getGameTotals` / `getTotals`: initialize every player's total to 0,
then fold the rounds in stored order, setting `totals[entry.playerId] =
entry.totalAfter` for every entry. -/
def getTotals (game : Game) : StrMap ℚ :=
  let totals := game.players.foldl (fun t p => setKey t p.id 0) []
  game.rounds.foldl
    (fun t round => round.entries.foldl (fun t e => setKey t e.playerId e.totalAfter) t)
    totals

/-- `getPodridaRounds` from `game.ts`. -/
def getPodridaRounds (game : Game) : List Round :=
  game.rounds.filter (fun round => round.type = GameType.podrida)

/-- `getPodridaMaxCards` from `game.ts`: `floor(48 / playersCount)`,
clamped to 0 for non-positive counts.  For positive `p`, `Int` division
`48 / p` is exactly `Math.floor(48 / p)`. -/
def getPodridaMaxCards (playersCount : Int) : Int :=
  if playersCount ≤ 0 then 0 else 48 / playersCount

/-- The ascending `for (cards = start; cards <= maxCards; cards += 1)`
loop, compiled with an explicit iteration count (the loop body runs
exactly `max 0 (maxCards - start + 1)` times). -/
def ascFrom (cards : Int) : Nat → List Int
  | 0 => []
  | n + 1 => cards :: ascFrom (cards + 1) n

/-- The descending `for (cards = maxCards - 1; cards >= 1; cards -= 1)`
loop, compiled with an explicit iteration count (the loop body runs
exactly `max 0 start` times, counting down to 1). -/
def descFrom (cards : Int) : Nat → List Int
  | 0 => []
  | n + 1 => cards :: descFrom (cards - 1) n

/-- `getPodridaCardsSequence` from `game.ts`. -/
def getPodridaCardsSequence (playersCount : Int) : List Int :=
  let maxCards := getPodridaMaxCards playersCount
  if maxCards ≤ 0 then
    []
  else
    let startCards := min 3 maxCards
    let ascending := ascFrom startCards (maxCards + 1 - startCards).toNat
    let descending := descFrom (maxCards - 1) (maxCards - 1).toNat
    ascending ++ descending

/-- `getNextPodridaCards` from `game.ts`: `sequence[playedCount]`, with
JS out-of-range indexing (`undefined`, hence `null`) modelled by
`List.get?`.  Every in-range element is a number, so the
`typeof nextCards === 'number'` test is exactly the range check. -/
def getNextPodridaCards (game : Game) : Option Int :=
  (getPodridaCardsSequence (game.players.length : Int)).get?
    (getPodridaRounds game).length

/-! ## `src/lib/storage/local-storage-repository.ts` -/

/-- The distinct failure messages thrown by the repository, as symbolic
errors (the two per-player errors carry the player name from the
message). -/
inductive RepoError where
  | notFound
  | gameFinished
  | classicOnly
  | podridaOnly
  | sequenceComplete
  | noEntries
  | tooFewPlayers
  | podridaTooFewCards
  | betNotInteger (playerName : String)
  | missingPendingBet (playerName : String)
  | missingTotal (playerName : String)
  | notOpen
  deriving DecidableEq, Repr

/-- `Number(m[k])` for a record of JS numbers: a missing key coerces to
`NaN` (`none`), and a stored non-finite value stays non-finite. -/
def numField (m : StrMap (Option ℚ)) (k : String) : Option ℚ :=
  (getKey m k).bind id

/-- `RoundInput` from `lib/types.ts`. -/
structure RoundInput where
  mode : Mode
  valuesByPlayerId : StrMap (Option ℚ)
  deriving DecidableEq, Repr

/-- `PodridaBetsInput` from `lib/types.ts`. -/
structure PodridaBetsInput where
  betsByPlayerId : StrMap (Option ℚ)
  deriving DecidableEq, Repr

/-- `PodridaRoundInput` from `lib/types.ts`. -/
structure PodridaRoundInput where
  totalsByPlayerId : StrMap (Option ℚ)
  deriving DecidableEq, Repr

/-- `NewPlayerInput` from `lib/types.ts`. -/
structure NewPlayerInput where
  name : String
  color : Option String
  deriving DecidableEq, Repr

/-- `CreateGameInput` from `lib/types.ts`. -/
structure CreateGameInput where
  name : Option String
  type : GameType
  players : List NewPlayerInput
  deriving DecidableEq, Repr

/-- `data.games.findIndex(g => g.id === gameId)` followed by reading that
index: the first game with the given id. -/
def findGame (games : List Game) (gameId : String) : Option Game :=
  games.find? (fun g => g.id = gameId)

/-- `games[gameIndex] = updatedGame` on a copy, where `gameIndex` is the
`findIndex` above: replace the first game whose id matches. -/
def replaceGame (games : List Game) (gameId : String) (g' : Game) : List Game :=
  match games with
  | [] => []
  | g :: rest => if g.id = gameId then g' :: rest else g :: replaceGame rest gameId g'

/-- Lowercasing (`String.toLower`), implemented on the character list so
that it computes by kernel reduction. -/
def lowerName (s : String) : String :=
  String.mk (s.data.map Char.toLower)

/-- The whitespace-delimited words of a character list, in order
(structurally recursive so that it computes by kernel reduction). -/
def wordsOf : List Char → List (List Char)
  | [] => []
  | [c] => if c.isWhitespace then [] else [[c]]
  | c :: d :: rest =>
    if c.isWhitespace then wordsOf (d :: rest)
    else
      match wordsOf (d :: rest), d.isWhitespace with
      | ws, true => [c] :: ws
      | [], false => [[c]]
      | w :: ws, false => (c :: w) :: ws

/-- `normalizeName`: `value.trim().replace(/\s+/g, ' ')` — the
whitespace-delimited words joined by single spaces. -/
def normalizeName (value : String) : String :=
  String.mk (List.intercalate [' '] (wordsOf value.data))

/-- The `toPlayers` loop with its `seenNames` set and the running
`createId('player')` counter made explicit. -/
def toPlayersAux (mkId : Nat → String) :
    List NewPlayerInput → List String → Nat → List Player
  | [], _, _ => []
  | input :: rest, seen, k =>
    let name := normalizeName input.name
    if name = "" then toPlayersAux mkId rest seen k
    else
      let lower := lowerName name
      if seen.contains lower then toPlayersAux mkId rest seen k
      else
        { id := mkId k, name := name,
          color := input.color.bind (fun c => if c = "" then none else some c) } ::
          toPlayersAux mkId rest (lower :: seen) (k + 1)

/-- `toPlayers` from the repository. -/
def toPlayers (inputPlayers : List NewPlayerInput) (mkId : Nat → String) : List Player :=
  toPlayersAux mkId inputPlayers [] 0

/-- `upsertRecentPlayers`: a JS `Map` keyed by lowercased name (`setKey`
has exactly `Map.set`'s overwrite-in-place-or-append semantics), values
sorted by `lastUsedAt` descending (`localeCompare` modelled as the
lexicographic string order) and truncated to `RECENT_LIMIT = 20`. -/
def upsertRecentPlayers (existing : List RecentPlayer) (players : List Player)
    (mkId : Nat → String) (now : String) : List RecentPlayer :=
  let map0 : StrMap RecentPlayer :=
    existing.foldl (fun m p => setKey m (lowerName p.name) p) []
  let step : StrMap RecentPlayer × Nat :=
    players.foldl
      (fun acc p =>
        let key := lowerName p.name
        match getKey acc.1 key with
        | some previous =>
          (setKey acc.1 key ⟨previous.id, p.name, p.color, now⟩, acc.2)
        | none =>
          (setKey acc.1 key ⟨mkId acc.2, p.name, p.color, now⟩, acc.2 + 1))
      (map0, 0)
  ((step.1.map Prod.snd).mergeSort
      (fun a b => decide (b.lastUsedAt ≤ a.lastUsedAt))).take 20

/-- `createGame`.  `mkPlayerId`/`mkRecentId` stand for the successive
`createId('player')` / `createId('recent_player')` calls and `gameId`
for `createId('game')`; `now` is `new Date().toISOString()`.  The result
pairs the outcome with the snapshot persisted after the call. -/
def createGame (data : AppData) (input : CreateGameInput) (mkPlayerId : Nat → String)
    (gameId : String) (mkRecentId : Nat → String) (now : String) :
    Except RepoError Game × AppData :=
  let players := toPlayers input.players mkPlayerId
  if players.length < 2 then (Except.error RepoError.tooFewPlayers, data)
  else if input.type = GameType.podrida ∧ getPodridaMaxCards (players.length : Int) < 3 then
    (Except.error RepoError.podridaTooFewCards, data)
  else
    let game : Game :=
      { id := gameId,
        name := input.name.bind (fun n => if n.trim = "" then none else some n.trim),
        type := if input.type = GameType.podrida then GameType.podrida else GameType.classic,
        players := players,
        rounds := [],
        status := GameStatus.opened,
        createdAt := now,
        updatedAt := now,
        finishedAt := none,
        podridaState :=
          if input.type = GameType.podrida then some ⟨[]⟩ else none }
    (Except.ok game,
      ⟨game :: data.games, upsertRecentPlayers data.recentPlayers players mkRecentId now⟩)

/-- The body of `addRound`'s entry loop for one input pair: `none` for a
`continue` (unknown player id or non-finite value), otherwise the pushed
entry.  The loop itself is the `filterMap` below, which keeps the
iteration order of `Object.entries`. -/
def classicEntry (playerIds : List String) (currentTotals : StrMap ℚ) (mode : Mode)
    (kv : String × Option ℚ) : Option RoundEntry :=
  if playerIds.contains kv.1 then
    match kv.2 with
    | some value =>
      let currentTotal := (getKey currentTotals kv.1).getD 0
      let nextTotal := if mode = Mode.add then currentTotal + value else value
      some ⟨kv.1, nextTotal - currentTotal, nextTotal⟩
    | none => none
  else none

/-- `addRound`. -/
def addRound (data : AppData) (gameId : String) (input : RoundInput)
    (roundId now : String) : Except RepoError Game × AppData :=
  match findGame data.games gameId with
  | none => (Except.error RepoError.notFound, data)
  | some game =>
    if game.status = GameStatus.finished then (Except.error RepoError.gameFinished, data)
    else if getGameType game ≠ GameType.classic then (Except.error RepoError.classicOnly, data)
    else
      let playerIds := game.players.map Player.id
      let currentTotals := getTotals game
      let entries :=
        input.valuesByPlayerId.filterMap (classicEntry playerIds currentTotals input.mode)
      if entries = [] then (Except.error RepoError.noEntries, data)
      else
        let round : Round :=
          ⟨roundId, now, input.mode, entries, GameType.classic, none, []⟩
        let updatedGame : Game :=
          { game with rounds := game.rounds ++ [round], updatedAt := now }
        (Except.ok updatedGame,
          ⟨replaceGame data.games gameId updatedGame, data.recentPlayers⟩)

/-- The `setPodridaBets` player loop: validate every player's bet as a
finite integer (`betNotInteger` names the first offender, whether the
bet is missing, non-finite or fractional), accumulating the validated
record in player order. -/
def collectBets (input : StrMap (Option ℚ)) :
    List Player → StrMap ℚ → Except RepoError (StrMap ℚ)
  | [], acc => Except.ok acc
  | p :: rest, acc =>
    match numField input p.id with
    | some bet =>
      if bet.den = 1 then collectBets input rest (setKey acc p.id bet)
      else Except.error (RepoError.betNotInteger p.name)
    | none => Except.error (RepoError.betNotInteger p.name)

/-- `setPodridaBets`. -/
def setPodridaBets (data : AppData) (gameId : String) (input : PodridaBetsInput)
    (now : String) : Except RepoError Game × AppData :=
  match findGame data.games gameId with
  | none => (Except.error RepoError.notFound, data)
  | some game =>
    if game.status = GameStatus.finished then (Except.error RepoError.gameFinished, data)
    else if getGameType game ≠ GameType.podrida then (Except.error RepoError.podridaOnly, data)
    else
      match getNextPodridaCards game with
      | none => (Except.error RepoError.sequenceComplete, data)
      | some _ =>
        match collectBets input.betsByPlayerId game.players [] with
        | Except.error e => (Except.error e, data)
        | Except.ok bets =>
          let updatedGame : Game :=
            { game with updatedAt := now, podridaState := some ⟨bets⟩ }
          (Except.ok updatedGame,
            ⟨replaceGame data.games gameId updatedGame, data.recentPlayers⟩)

/-- The `addPodridaRound` player loop: per player, in order, first the
pending-bet check (missing / non-finite / non-integer ⇒
`missingPendingBet`), then the finite-total check (`missingTotal`);
on success the entry is pushed and the bet recorded. -/
def podridaEntriesLoop (pending : StrMap ℚ) (totalsInput : StrMap (Option ℚ))
    (currentTotals : StrMap ℚ) :
    List Player → List RoundEntry → StrMap ℚ →
      Except RepoError (List RoundEntry × StrMap ℚ)
  | [], accEntries, accBets => Except.ok (accEntries, accBets)
  | p :: rest, accEntries, accBets =>
    match getKey pending p.id with
    | none => Except.error (RepoError.missingPendingBet p.name)
    | some bet =>
      if bet.den = 1 then
        match numField totalsInput p.id with
        | none => Except.error (RepoError.missingTotal p.name)
        | some totalValue =>
          let currentTotal := (getKey currentTotals p.id).getD 0
          podridaEntriesLoop pending totalsInput currentTotals rest
            (accEntries ++ [⟨p.id, totalValue - currentTotal, totalValue⟩])
            (setKey accBets p.id bet)
      else Except.error (RepoError.missingPendingBet p.name)

/-- `game.podridaState?.pendingBetsByPlayerId ?? {}`. -/
def pendingBets (game : Game) : StrMap ℚ :=
  match game.podridaState with
  | some st => st.pendingBetsByPlayerId
  | none => []

/-- `addPodridaRound`. -/
def addPodridaRound (data : AppData) (gameId : String) (input : PodridaRoundInput)
    (roundId now : String) : Except RepoError Game × AppData :=
  match findGame data.games gameId with
  | none => (Except.error RepoError.notFound, data)
  | some game =>
    if game.status = GameStatus.finished then (Except.error RepoError.gameFinished, data)
    else if getGameType game ≠ GameType.podrida then (Except.error RepoError.podridaOnly, data)
    else
      match getNextPodridaCards game with
      | none => (Except.error RepoError.sequenceComplete, data)
      | some nextCardsCount =>
        let currentTotals := getTotals game
        match podridaEntriesLoop (pendingBets game) input.totalsByPlayerId currentTotals
            game.players [] [] with
        | Except.error e => (Except.error e, data)
        | Except.ok (entries, bets) =>
          let round : Round :=
            ⟨roundId, now, Mode.set, entries, GameType.podrida,
              some (nextCardsCount : ℚ), bets⟩
          let updatedGame : Game :=
            { game with rounds := game.rounds ++ [round], updatedAt := now,
                        podridaState := some ⟨[]⟩ }
          (Except.ok updatedGame,
            ⟨replaceGame data.games gameId updatedGame, data.recentPlayers⟩)

/-- `deleteOpenGame`. -/
def deleteOpenGame (data : AppData) (gameId : String) :
    Except RepoError Unit × AppData :=
  match findGame data.games gameId with
  | none => (Except.error RepoError.notFound, data)
  | some game =>
    if game.status ≠ GameStatus.opened then (Except.error RepoError.notOpen, data)
    else
      (Except.ok (),
        ⟨data.games.filter (fun g => g.id ≠ gameId), data.recentPlayers⟩)

/-- `finishGame`.  Note the already-finished branch returns the game
without writing. -/
def finishGame (data : AppData) (gameId : String) (now : String) :
    Except RepoError Game × AppData :=
  match findGame data.games gameId with
  | none => (Except.error RepoError.notFound, data)
  | some game =>
    if game.status = GameStatus.finished then (Except.ok game, data)
    else
      let updatedGame : Game :=
        { game with status := GameStatus.finished, finishedAt := some now,
                    updatedAt := now }
      (Except.ok updatedGame,
        ⟨replaceGame data.games gameId updatedGame, data.recentPlayers⟩)

/-! ## Basic facts about the JS-object model -/

theorem getKey_setKey {α : Type} (m : StrMap α) (k k' : String) (v : α) :
    getKey (setKey m k v) k' = if k = k' then some v else getKey m k' := by
  induction m with
  | nil => by_cases h : k = k' <;> simp [setKey, getKey, h]
  | cons hd tl ih =>
    obtain ⟨a, b⟩ := hd
    by_cases h1 : a = k <;> by_cases h2 : k = k' <;>
      simp_all [setKey, getKey]

/-! ## The Podrida card sequence (C2, C3) -/

/-- The ascending loop enumerates `a, a+1, …` for its iteration count. -/
theorem ascFrom_eq_range :
    ∀ (n : Nat) (a : Int), ascFrom a n = (List.range n).map (fun i : Nat => a + (i : Int)) := by
  intro n
  induction n with
  | zero => intro a; rfl
  | succ n ih =>
    intro a
    rw [ascFrom, List.range_succ_eq_map, List.map_cons, List.map_map, ih (a + 1)]
    refine congrArg₂ List.cons (by simp) (List.map_congr_left ?_)
    intro i _
    simp only [Function.comp_apply, Nat.succ_eq_add_one]
    push_cast
    ring

/-- The descending loop enumerates `b, b-1, …` for its iteration count. -/
theorem descFrom_eq_range :
    ∀ (n : Nat) (b : Int), descFrom b n = (List.range n).map (fun i : Nat => b - (i : Int)) := by
  intro n
  induction n with
  | zero => intro b; rfl
  | succ n ih =>
    intro b
    rw [descFrom, List.range_succ_eq_map, List.map_cons, List.map_map, ih (b - 1)]
    refine congrArg₂ List.cons (by simp) (List.map_congr_left ?_)
    intro i _
    simp only [Function.comp_apply, Nat.succ_eq_add_one]
    push_cast
    ring

/-- Spec-side: the ascending run `a, a+1, …, b` (empty when `b < a`). -/
def ascendingRun (a b : Int) : List Int :=
  (List.range (b + 1 - a).toNat).map (fun i : Nat => a + (i : Int))

/-- Spec-side: the descending run `b, b-1, …, 1` (empty when `b < 1`). -/
def descendingRun (b : Int) : List Int :=
  (List.range b.toNat).map (fun i : Nat => b - (i : Int))

/-- C2: for every player count `p`, with `maxCards = floor(48 / p)`
(0 when `p ≤ 0`), the sequence is empty when `maxCards ≤ 0` and otherwise
is the ascending run from `min 3 maxCards` to `maxCards` followed by the
descending run from `maxCards - 1` down to `1`; in particular
`maxCards = 6` (`p = 8`) gives `[3,4,5,6,5,4,3,2,1]`, `maxCards = 2`
(`p = 24`) gives `[2,1]`, and `maxCards ≤ 0` gives `[]`. -/
theorem getPodridaCardsSequence_runs :
    (∀ p : Int,
        getPodridaCardsSequence p =
          if getPodridaMaxCards p ≤ 0 then []
          else
            ascendingRun (min 3 (getPodridaMaxCards p)) (getPodridaMaxCards p) ++
              descendingRun (getPodridaMaxCards p - 1)) ∧
    getPodridaCardsSequence 8 = [3, 4, 5, 6, 5, 4, 3, 2, 1] ∧
    getPodridaCardsSequence 24 = [2, 1] ∧
    getPodridaCardsSequence 0 = [] ∧
    getPodridaCardsSequence (-3) = [] ∧
    getPodridaCardsSequence 100 = [] := by
  refine ⟨?_, by decide, by decide, by decide, by decide, by decide⟩
  intro p
  by_cases h : getPodridaMaxCards p ≤ 0
  · simp [getPodridaCardsSequence, h]
  · simp [getPodridaCardsSequence, h, ascendingRun, descendingRun,
      ascFrom_eq_range, descFrom_eq_range]

/-- A demo podrida game: 16 players (`maxCards = 3`, sequence `[3,2,1]`),
no rounds played yet. -/
def demoPodridaGame : Game :=
  ⟨"gp", none, GameType.podrida, List.replicate 16 ⟨"p", "Pepe", none⟩, [],
    GameStatus.opened, "t0", "t0", none, some ⟨[]⟩⟩

/-- C3: `getNextPodridaCards` returns the sequence element at the index
given by the number of podrida rounds already stored, and `none` exactly
when that count has reached the sequence length. -/
theorem getNextPodridaCards_index (game : Game) :
    (∀ h : (getPodridaRounds game).length <
        (getPodridaCardsSequence (game.players.length : Int)).length,
      getNextPodridaCards game =
        some ((getPodridaCardsSequence (game.players.length : Int)).get
          ⟨(getPodridaRounds game).length, h⟩)) ∧
    (getNextPodridaCards game = none ↔
      (getPodridaCardsSequence (game.players.length : Int)).length ≤
        (getPodridaRounds game).length) := by
  constructor
  · intro h
    exact List.get?_eq_get h
  · exact List.get?_eq_none

/-- C3 witness: on the demo game (0 podrida rounds played) the next card
count is the sequence head, 3. -/
theorem getNextPodridaCards_index_witness :
    getNextPodridaCards demoPodridaGame = some 3 := by
  have h := (getNextPodridaCards_index demoPodridaGame).1 (by decide)
  exact h.trans (by decide)

/-! ## The totals engine (C1) -/

/-- Spec-side: all round entries of a game in stored (append) order. -/
def allEntries (game : Game) : List RoundEntry :=
  (game.rounds.map Round.entries).flatten

/-- Spec-side: the `totalAfter` of the player's last entry across all
rounds, or 0 when the player has no entry. -/
def lastTotalAfter (game : Game) (pid : String) : ℚ :=
  (((allEntries game).filter (fun e => e.playerId = pid)).getLast?.map
    RoundEntry.totalAfter).getD 0

/-- The initializing fold sets every player id to 0 and touches no other
key. -/
theorem getKey_initFold (players : List Player) :
    ∀ (m : StrMap ℚ) (k : String),
      getKey (players.foldl (fun t p => setKey t p.id 0) m) k =
        if k ∈ players.map Player.id then some 0 else getKey m k := by
  induction players with
  | nil => intro m k; simp
  | cons p rest ih =>
    intro m k
    simp only [List.foldl_cons]
    rw [ih]
    by_cases h1 : k ∈ rest.map Player.id <;> by_cases h2 : p.id = k <;>
      simp_all [getKey_setKey, eq_comm]

/-- Folding a flat entry list leaves, at each key, the `totalAfter` of
the last entry for that key (or the initial value when there is none). -/
theorem getKey_entriesFold (k : String) (m : StrMap ℚ) (es : List RoundEntry) :
    getKey (es.foldl (fun t e => setKey t e.playerId e.totalAfter) m) k =
      ((es.filter (fun e => e.playerId = k)).getLast?).elim (getKey m k)
        (fun e => some e.totalAfter) := by
  induction es using List.reverseRecOn with
  | nil => simp
  | append_singleton l e ih =>
    rw [List.foldl_append]
    simp only [List.foldl_cons, List.foldl_nil]
    rw [getKey_setKey]
    by_cases h : e.playerId = k
    · simp [List.filter_append, h, List.getLast?_concat]
    · simp [List.filter_append, h, ih]

/-- `getTotals` as a single fold over the flattened entry list. -/
theorem getTotals_eq (game : Game) :
    getTotals game =
      (allEntries game).foldl (fun t e => setKey t e.playerId e.totalAfter)
        (game.players.foldl (fun t p => setKey t p.id 0) []) := by
  simp only [getTotals, allEntries]
  rw [List.foldl_flatten, List.foldl_map]

/-- Rewrite every entry's `delta` (keeping `playerId` and `totalAfter`). -/
def setDeltas (f : RoundEntry → ℚ) (game : Game) : Game :=
  { game with
      rounds := game.rounds.map (fun r =>
        { r with entries := r.entries.map (fun e => { e with delta := f e }) }) }

/-- C1: for every game, `getTotals` assigns to each player of the game
the `totalAfter` of that player's last entry in stored round order (0
when the player has no entry, via `getD 0`), and the entries' `delta`
fields are never used: rewriting every `delta` leaves the totals
unchanged. -/
theorem getTotals_last_totalAfter (game : Game) :
    (∀ p ∈ game.players,
      getKey (getTotals game) p.id = some (lastTotalAfter game p.id)) ∧
    (∀ f : RoundEntry → ℚ, getTotals (setDeltas f game) = getTotals game) := by
  constructor
  · intro p hp
    have hmem : p.id ∈ game.players.map Player.id := List.mem_map_of_mem _ hp
    rw [getTotals_eq, getKey_entriesFold, getKey_initFold]
    cases hL : ((allEntries game).filter (fun e => e.playerId = p.id)).getLast? with
    | none => simp [lastTotalAfter, hL, hmem]
    | some e => simp [lastTotalAfter, hL, hmem]
  · intro f
    rw [getTotals_eq, getTotals_eq]
    have hinit : (setDeltas f game).players = game.players := rfl
    have hall :
        allEntries (setDeltas f game) =
          (allEntries game).map (fun e => ⟨e.playerId, f e, e.totalAfter⟩) := by
      simp [allEntries, setDeltas, List.map_flatten, List.map_map]
      rfl
    rw [hinit, hall, List.foldl_map]

/-- A demo classic game for the C1 witness: two players, two rounds. -/
def demoGameC1 : Game :=
  ⟨"g1", none, GameType.classic,
    [⟨"a", "Ana", none⟩, ⟨"b", "Beto", none⟩],
    [⟨"r1", "t1", Mode.set, [⟨"a", 3, 3⟩, ⟨"b", 5, 5⟩], GameType.classic, none, []⟩,
     ⟨"r2", "t2", Mode.add, [⟨"a", 2, 5⟩], GameType.classic, none, []⟩],
    GameStatus.opened, "t0", "t1", none, none⟩

/-- C1 witness: player `a`'s total is its last entry's `totalAfter`, 5. -/
theorem getTotals_last_totalAfter_witness :
    getKey (getTotals demoGameC1) "a" = some (lastTotalAfter demoGameC1 "a") ∧
    lastTotalAfter demoGameC1 "a" = 5 :=
  ⟨(getTotals_last_totalAfter demoGameC1).1 ⟨"a", "Ana", none⟩ (by decide),
    by decide⟩

/-! ## Repository helper lemmas -/

/-- The first game found for an id has that id. -/
theorem findGame_id {games : List Game} {gid : String} {game : Game}
    (h : findGame games gid = some game) : game.id = gid := by
  have := List.find?_some h
  simpa using this

/-- A member of `replaceGame games gid g'` is an old member or `g'`. -/
theorem mem_replaceGame {gid : String} {g' g : Game} :
    ∀ {games : List Game}, g ∈ replaceGame games gid g' → g ∈ games ∨ g = g' := by
  intro games
  induction games with
  | nil => intro h; simp [replaceGame] at h
  | cons hd tl ih =>
    intro h
    by_cases hg : hd.id = gid
    · rw [replaceGame, if_pos hg, List.mem_cons] at h
      rcases h with h | h
      · exact Or.inr h
      · exact Or.inl (List.mem_cons_of_mem _ h)
    · rw [replaceGame, if_neg hg, List.mem_cons] at h
      rcases h with h | h
      · exact Or.inl (h ▸ List.mem_cons_self hd tl)
      · rcases ih h with h' | h'
        · exact Or.inl (List.mem_cons_of_mem _ h')
        · exact Or.inr h'

/-- After replacing the game found for `gid` by a game that keeps the id,
the lookup finds the replacement. -/
theorem findGame_replaceGame {games : List Game} {gid : String} {g' : Game}
    (hid : g'.id = gid) :
    ∀ game, findGame games gid = some game →
      findGame (replaceGame games gid g') gid = some g' := by
  induction games with
  | nil => intro game h; simp [findGame] at h
  | cons g rest ih =>
    intro game h
    by_cases hg : g.id = gid
    · simp [findGame, replaceGame, hg, hid]
    · simp only [replaceGame, if_neg hg]
      simp only [findGame] at h ⊢
      rw [List.find?_cons_of_neg _ (by simp [hg])] at h
      rw [List.find?_cons_of_neg _ (by simp [hg])]
      exact ih game h


/-- Every run of `addRound` either fails leaving the snapshot unchanged,
or succeeds on an open classic game, replacing only that game by an
updated copy with the same id and status. -/
theorem addRound_shape (data : AppData) (gameId : String) (input : RoundInput)
    (roundId now : String) :
    (∃ e, addRound data gameId input roundId now = (Except.error e, data)) ∨
    (∃ game g', findGame data.games gameId = some game ∧
      game.status = GameStatus.opened ∧ g'.id = game.id ∧ g'.status = game.status ∧
      addRound data gameId input roundId now =
        (Except.ok g', ⟨replaceGame data.games gameId g', data.recentPlayers⟩)) := by
  cases hF : findGame data.games gameId with
  | none => exact Or.inl ⟨RepoError.notFound, by simp [addRound, hF]⟩
  | some game =>
    by_cases h1 : game.status = GameStatus.finished
    · exact Or.inl ⟨RepoError.gameFinished, by simp [addRound, hF, h1]⟩
    · by_cases h2 : getGameType game = GameType.classic
      · by_cases h3 :
            input.valuesByPlayerId.filterMap
              (classicEntry (game.players.map Player.id) (getTotals game) input.mode) = []
        · exact Or.inl ⟨RepoError.noEntries, by simp [addRound, hF, h1, h2, h3]⟩
        · have hstat : game.status = GameStatus.opened := by
            cases hs : game.status
            · rfl
            · exact absurd hs h1
          exact Or.inr ⟨game,
            { game with
                rounds := game.rounds ++
                  [⟨roundId, now, input.mode,
                    input.valuesByPlayerId.filterMap
                      (classicEntry (game.players.map Player.id) (getTotals game)
                        input.mode),
                    GameType.classic, none, []⟩],
                updatedAt := now },
            rfl, hstat, rfl, rfl, by simp [addRound, hF, h1, h2, h3]⟩
      · exact Or.inl ⟨RepoError.classicOnly, by simp [addRound, hF, h1, h2]⟩

/-- Every run of `setPodridaBets` either fails leaving the snapshot
unchanged, or succeeds on an open podrida game, replacing only that game
by a copy with the same id, status and rounds and the validated bets as
pending. -/
theorem setPodridaBets_shape (data : AppData) (gameId : String)
    (input : PodridaBetsInput) (now : String) :
    (∃ e, setPodridaBets data gameId input now = (Except.error e, data)) ∨
    (∃ game bets, findGame data.games gameId = some game ∧
      game.status = GameStatus.opened ∧
      collectBets input.betsByPlayerId game.players [] = Except.ok bets ∧
      setPodridaBets data gameId input now =
        (Except.ok { game with updatedAt := now, podridaState := some ⟨bets⟩ },
          ⟨replaceGame data.games gameId
              { game with updatedAt := now, podridaState := some ⟨bets⟩ },
            data.recentPlayers⟩)) := by
  cases hF : findGame data.games gameId with
  | none => exact Or.inl ⟨RepoError.notFound, by simp [setPodridaBets, hF]⟩
  | some game =>
    by_cases h1 : game.status = GameStatus.finished
    · exact Or.inl ⟨RepoError.gameFinished, by simp [setPodridaBets, hF, h1]⟩
    · by_cases h2 : getGameType game = GameType.podrida
      · cases hN : getNextPodridaCards game with
        | none =>
          exact Or.inl ⟨RepoError.sequenceComplete,
            by simp [setPodridaBets, hF, h1, h2, hN]⟩
        | some nextCards =>
          cases hB : collectBets input.betsByPlayerId game.players [] with
          | error e =>
            exact Or.inl ⟨e, by simp [setPodridaBets, hF, h1, h2, hN, hB]⟩
          | ok bets =>
            have hstat : game.status = GameStatus.opened := by
              cases hs : game.status
              · rfl
              · exact absurd hs h1
            exact Or.inr ⟨game, bets, rfl, hstat, hB,
              by simp [setPodridaBets, hF, h1, h2, hN, hB]⟩
      · exact Or.inl ⟨RepoError.podridaOnly, by simp [setPodridaBets, hF, h1, h2]⟩

/-- Every run of `addPodridaRound` either fails leaving the snapshot
unchanged, or succeeds on an open podrida game, replacing only that game
by a copy with one appended podrida round and cleared pending bets. -/
theorem addPodridaRound_shape (data : AppData) (gameId : String)
    (input : PodridaRoundInput) (roundId now : String) :
    (∃ e, addPodridaRound data gameId input roundId now = (Except.error e, data)) ∨
    (∃ game nextCards entries bets, findGame data.games gameId = some game ∧
      game.status = GameStatus.opened ∧
      getNextPodridaCards game = some nextCards ∧
      podridaEntriesLoop (pendingBets game) input.totalsByPlayerId (getTotals game)
          game.players [] [] = Except.ok (entries, bets) ∧
      addPodridaRound data gameId input roundId now =
        (Except.ok
            { game with
                rounds := game.rounds ++
                  [⟨roundId, now, Mode.set, entries, GameType.podrida,
                    some (nextCards : ℚ), bets⟩],
                updatedAt := now, podridaState := some ⟨[]⟩ },
          ⟨replaceGame data.games gameId
              { game with
                  rounds := game.rounds ++
                    [⟨roundId, now, Mode.set, entries, GameType.podrida,
                      some (nextCards : ℚ), bets⟩],
                  updatedAt := now, podridaState := some ⟨[]⟩ },
            data.recentPlayers⟩)) := by
  cases hF : findGame data.games gameId with
  | none => exact Or.inl ⟨RepoError.notFound, by simp [addPodridaRound, hF]⟩
  | some game =>
    by_cases h1 : game.status = GameStatus.finished
    · exact Or.inl ⟨RepoError.gameFinished, by simp [addPodridaRound, hF, h1]⟩
    · by_cases h2 : getGameType game = GameType.podrida
      · cases hN : getNextPodridaCards game with
        | none =>
          exact Or.inl ⟨RepoError.sequenceComplete,
            by simp [addPodridaRound, hF, h1, h2, hN]⟩
        | some nextCards =>
          cases hB : podridaEntriesLoop (pendingBets game) input.totalsByPlayerId
              (getTotals game) game.players [] [] with
          | error e =>
            exact Or.inl ⟨e, by simp [addPodridaRound, hF, h1, h2, hN, hB]⟩
          | ok pr =>
            obtain ⟨entries, bets⟩ := pr
            have hstat : game.status = GameStatus.opened := by
              cases hs : game.status
              · rfl
              · exact absurd hs h1
            exact Or.inr ⟨game, nextCards, entries, bets, rfl, hstat, hN, hB,
              by simp [addPodridaRound, hF, h1, h2, hN, hB]⟩
      · exact Or.inl ⟨RepoError.podridaOnly, by simp [addPodridaRound, hF, h1, h2]⟩

/-- Every run of `finishGame`: not found (snapshot unchanged), already
finished (no-op), or open, in which case only that game is replaced by
its finished copy. -/
theorem finishGame_shape (data : AppData) (gameId now : String) :
    (findGame data.games gameId = none ∧
      finishGame data gameId now = (Except.error RepoError.notFound, data)) ∨
    (∃ game, findGame data.games gameId = some game ∧
      game.status = GameStatus.finished ∧
      finishGame data gameId now = (Except.ok game, data)) ∨
    (∃ game, findGame data.games gameId = some game ∧
      game.status = GameStatus.opened ∧
      finishGame data gameId now =
        (Except.ok
            { game with
                status := GameStatus.finished
                finishedAt := some now
                updatedAt := now },
          ⟨replaceGame data.games gameId
              { game with
                  status := GameStatus.finished
                  finishedAt := some now
                  updatedAt := now },
            data.recentPlayers⟩)) := by
  cases hF : findGame data.games gameId with
  | none => exact Or.inl ⟨rfl, by simp [finishGame, hF]⟩
  | some game =>
    by_cases h1 : game.status = GameStatus.finished
    · exact Or.inr (Or.inl ⟨game, rfl, h1, by simp [finishGame, hF, h1]⟩)
    · have hstat : game.status = GameStatus.opened := by
        cases hs : game.status
        · rfl
        · exact absurd hs h1
      exact Or.inr (Or.inr ⟨game, rfl, hstat, by simp [finishGame, hF, h1]⟩)

/-- Every run of `deleteOpenGame` either fails leaving the snapshot
unchanged, or removes exactly the games with the given id. -/
theorem deleteOpenGame_shape (data : AppData) (gameId : String) :
    (∃ e, deleteOpenGame data gameId = (Except.error e, data)) ∨
    (∃ game, findGame data.games gameId = some game ∧
      game.status = GameStatus.opened ∧
      deleteOpenGame data gameId =
        (Except.ok (),
          ⟨data.games.filter (fun g => g.id ≠ gameId), data.recentPlayers⟩)) := by
  cases hF : findGame data.games gameId with
  | none => exact Or.inl ⟨RepoError.notFound, by simp [deleteOpenGame, hF]⟩
  | some game =>
    by_cases h1 : game.status = GameStatus.opened
    · exact Or.inr ⟨game, rfl, h1, by simp [deleteOpenGame, hF, h1]⟩
    · exact Or.inl ⟨RepoError.notOpen, by simp [deleteOpenGame, hF, h1]⟩

/-- Every run of `createGame` either fails leaving the snapshot
unchanged, or prepends the new game, leaving every existing game
untouched. -/
theorem createGame_shape (data : AppData) (input : CreateGameInput)
    (mkPlayerId : Nat → String) (gameId : String) (mkRecentId : Nat → String)
    (now : String) :
    (∃ e, createGame data input mkPlayerId gameId mkRecentId now =
      (Except.error e, data)) ∨
    (∃ game, createGame data input mkPlayerId gameId mkRecentId now =
      (Except.ok game,
        ⟨game :: data.games,
          upsertRecentPlayers data.recentPlayers (toPlayers input.players mkPlayerId)
            mkRecentId now⟩)) := by
  by_cases h1 : (toPlayers input.players mkPlayerId).length < 2
  · exact Or.inl ⟨RepoError.tooFewPlayers, by simp [createGame, h1]⟩
  · by_cases h2 : input.type = GameType.podrida ∧
        getPodridaMaxCards ((toPlayers input.players mkPlayerId).length : Int) < 3
    · exact Or.inl ⟨RepoError.podridaTooFewCards, by simp [createGame, h1, h2]⟩
    · exact Or.inr
        ⟨{ id := gameId,
           name := input.name.bind (fun n => if n.trim = "" then none else some n.trim),
           type := if input.type = GameType.podrida then GameType.podrida
             else GameType.classic,
           players := toPlayers input.players mkPlayerId,
           rounds := [],
           status := GameStatus.opened,
           createdAt := now,
           updatedAt := now,
           finishedAt := none,
           podridaState :=
             if input.type = GameType.podrida then some ⟨[]⟩ else none },
          by simp [createGame, h1, h2]⟩

/-- C9: every store operation is atomic with respect to failure — when
the outcome is an error, the persisted snapshot equals the snapshot
before the call. -/
theorem repository_atomic_on_failure :
    (∀ (data : AppData) (input : CreateGameInput) (mkPlayerId : Nat → String)
        (gameId : String) (mkRecentId : Nat → String) (now : String) (e : RepoError),
        (createGame data input mkPlayerId gameId mkRecentId now).1 = Except.error e →
        (createGame data input mkPlayerId gameId mkRecentId now).2 = data) ∧
    (∀ (data : AppData) (gameId : String) (input : RoundInput) (roundId now : String)
        (e : RepoError),
        (addRound data gameId input roundId now).1 = Except.error e →
        (addRound data gameId input roundId now).2 = data) ∧
    (∀ (data : AppData) (gameId : String) (input : PodridaBetsInput) (now : String)
        (e : RepoError),
        (setPodridaBets data gameId input now).1 = Except.error e →
        (setPodridaBets data gameId input now).2 = data) ∧
    (∀ (data : AppData) (gameId : String) (input : PodridaRoundInput)
        (roundId now : String) (e : RepoError),
        (addPodridaRound data gameId input roundId now).1 = Except.error e →
        (addPodridaRound data gameId input roundId now).2 = data) ∧
    (∀ (data : AppData) (gameId now : String) (e : RepoError),
        (finishGame data gameId now).1 = Except.error e →
        (finishGame data gameId now).2 = data) ∧
    (∀ (data : AppData) (gameId : String) (e : RepoError),
        (deleteOpenGame data gameId).1 = Except.error e →
        (deleteOpenGame data gameId).2 = data) := by
  refine ⟨?_, ?_, ?_, ?_, ?_, ?_⟩
  · intro data input mkPlayerId gameId mkRecentId now e h
    rcases createGame_shape data input mkPlayerId gameId mkRecentId now with
      ⟨e', heq⟩ | ⟨game, heq⟩
    · rw [heq]
    · rw [heq] at h; simp at h
  · intro data gameId input roundId now e h
    rcases addRound_shape data gameId input roundId now with
      ⟨e', heq⟩ | ⟨game, g', _, _, _, _, heq⟩
    · rw [heq]
    · rw [heq] at h; simp at h
  · intro data gameId input now e h
    rcases setPodridaBets_shape data gameId input now with
      ⟨e', heq⟩ | ⟨game, bets, _, _, _, heq⟩
    · rw [heq]
    · rw [heq] at h; simp at h
  · intro data gameId input roundId now e h
    rcases addPodridaRound_shape data gameId input roundId now with
      ⟨e', heq⟩ | ⟨game, nextCards, entries, bets, _, _, _, _, heq⟩
    · rw [heq]
    · rw [heq] at h; simp at h
  · intro data gameId now e h
    rcases finishGame_shape data gameId now with
      ⟨_, heq⟩ | ⟨game, _, _, heq⟩ | ⟨game, _, _, heq⟩
    · rw [heq]
    · rw [heq] at h; simp at h
    · rw [heq] at h; simp at h
  · intro data gameId e h
    rcases deleteOpenGame_shape data gameId with
      ⟨e', heq⟩ | ⟨game, _, _, heq⟩
    · rw [heq]
    · rw [heq] at h; simp at h

/-- The empty snapshot. -/
def emptyData : AppData := ⟨[], []⟩

/-- C9 witness: on the empty snapshot every operation fails (too few
players / not found) and the persisted snapshot is unchanged. -/
theorem repository_atomic_on_failure_witness :
    (createGame emptyData ⟨none, GameType.classic, []⟩ (fun _ => "p") "g"
        (fun _ => "r") "t").2 = emptyData ∧
    (addRound emptyData "g" ⟨Mode.add, []⟩ "r" "t").2 = emptyData ∧
    (setPodridaBets emptyData "g" ⟨[]⟩ "t").2 = emptyData ∧
    (addPodridaRound emptyData "g" ⟨[]⟩ "r" "t").2 = emptyData ∧
    (finishGame emptyData "g" "t").2 = emptyData ∧
    (deleteOpenGame emptyData "g").2 = emptyData :=
  ⟨repository_atomic_on_failure.1 emptyData ⟨none, GameType.classic, []⟩
      (fun _ => "p") "g" (fun _ => "r") "t" RepoError.tooFewPlayers rfl,
    repository_atomic_on_failure.2.1 emptyData "g" ⟨Mode.add, []⟩ "r" "t"
      RepoError.notFound rfl,
    repository_atomic_on_failure.2.2.1 emptyData "g" ⟨[]⟩ "t"
      RepoError.notFound rfl,
    repository_atomic_on_failure.2.2.2.1 emptyData "g" ⟨[]⟩ "r" "t"
      RepoError.notFound rfl,
    repository_atomic_on_failure.2.2.2.2.1 emptyData "g" "t"
      RepoError.notFound rfl,
    repository_atomic_on_failure.2.2.2.2.2 emptyData "g"
      RepoError.notFound rfl⟩

/-- `replaceGame` keeps the list length. -/
theorem replaceGame_length (games : List Game) (gid : String) (g' : Game) :
    (replaceGame games gid g').length = games.length := by
  induction games with
  | nil => rfl
  | cons hd tl ih => by_cases hg : hd.id = gid <;> simp [replaceGame, hg, ih]

/-- `replaceGame` leaves every position holding a game with a different
id exactly as it was. -/
theorem replaceGame_get? (games : List Game) (gid : String) (g' : Game) :
    ∀ (i : Nat) (g : Game), games.get? i = some g → g.id ≠ gid →
      (replaceGame games gid g').get? i = some g := by
  induction games with
  | nil => intro i g h _; simp at h
  | cons hd tl ih =>
    intro i g h hne
    by_cases hg : hd.id = gid
    · cases i with
      | zero =>
        rw [List.get?_cons_zero] at h
        injection h with h
        exact absurd (h ▸ hg) hne
      | succ n =>
        rw [List.get?_cons_succ] at h
        simpa [replaceGame, hg] using h
    · cases i with
      | zero =>
        rw [List.get?_cons_zero] at h
        simp only [replaceGame, if_neg hg, List.get?_cons_zero]
        exact h
      | succ n =>
        rw [List.get?_cons_succ] at h
        simp only [replaceGame, if_neg hg, List.get?_cons_succ]
        exact ih n g h hne

/-- C10: every mutating operation except `createGame` writes back the
snapshot with `recentPlayers` unchanged; each of `addRound`,
`setPodridaBets`, `addPodridaRound` and `finishGame` modifies at most the
single game identified by `gameId`: any game of the new snapshot is an
old game or carries the addressed id, the games list keeps its length,
and every position holding a game whose id is not the addressed one still
holds exactly that game afterwards. -/
theorem repository_frame :
    (∀ (data : AppData) (gameId : String) (input : RoundInput) (roundId now : String),
        (addRound data gameId input roundId now).2.recentPlayers =
          data.recentPlayers) ∧
    (∀ (data : AppData) (gameId : String) (input : PodridaBetsInput) (now : String),
        (setPodridaBets data gameId input now).2.recentPlayers =
          data.recentPlayers) ∧
    (∀ (data : AppData) (gameId : String) (input : PodridaRoundInput)
        (roundId now : String),
        (addPodridaRound data gameId input roundId now).2.recentPlayers =
          data.recentPlayers) ∧
    (∀ (data : AppData) (gameId now : String),
        (finishGame data gameId now).2.recentPlayers = data.recentPlayers) ∧
    (∀ (data : AppData) (gameId : String),
        (deleteOpenGame data gameId).2.recentPlayers = data.recentPlayers) ∧
    (∀ (data : AppData) (gameId : String) (input : RoundInput) (roundId now : String),
        ∀ g ∈ (addRound data gameId input roundId now).2.games,
          g ∈ data.games ∨ g.id = gameId) ∧
    (∀ (data : AppData) (gameId : String) (input : PodridaBetsInput) (now : String),
        ∀ g ∈ (setPodridaBets data gameId input now).2.games,
          g ∈ data.games ∨ g.id = gameId) ∧
    (∀ (data : AppData) (gameId : String) (input : PodridaRoundInput)
        (roundId now : String),
        ∀ g ∈ (addPodridaRound data gameId input roundId now).2.games,
          g ∈ data.games ∨ g.id = gameId) ∧
    (∀ (data : AppData) (gameId now : String),
        ∀ g ∈ (finishGame data gameId now).2.games,
          g ∈ data.games ∨ g.id = gameId) ∧
    (∀ (data : AppData) (gameId : String) (input : RoundInput) (roundId now : String),
        (addRound data gameId input roundId now).2.games.length =
          data.games.length ∧
        ∀ (i : Nat) (g : Game), data.games.get? i = some g → g.id ≠ gameId →
          (addRound data gameId input roundId now).2.games.get? i = some g) ∧
    (∀ (data : AppData) (gameId : String) (input : PodridaBetsInput) (now : String),
        (setPodridaBets data gameId input now).2.games.length =
          data.games.length ∧
        ∀ (i : Nat) (g : Game), data.games.get? i = some g → g.id ≠ gameId →
          (setPodridaBets data gameId input now).2.games.get? i = some g) ∧
    (∀ (data : AppData) (gameId : String) (input : PodridaRoundInput)
        (roundId now : String),
        (addPodridaRound data gameId input roundId now).2.games.length =
          data.games.length ∧
        ∀ (i : Nat) (g : Game), data.games.get? i = some g → g.id ≠ gameId →
          (addPodridaRound data gameId input roundId now).2.games.get? i = some g) ∧
    (∀ (data : AppData) (gameId now : String),
        (finishGame data gameId now).2.games.length = data.games.length ∧
        ∀ (i : Nat) (g : Game), data.games.get? i = some g → g.id ≠ gameId →
          (finishGame data gameId now).2.games.get? i = some g) := by
  refine ⟨?_, ?_, ?_, ?_, ?_, ?_, ?_, ?_, ?_, ?_, ?_, ?_, ?_⟩
  · intro data gameId input roundId now
    rcases addRound_shape data gameId input roundId now with
      ⟨e, heq⟩ | ⟨game, g', _, _, _, _, heq⟩ <;> rw [heq]
  · intro data gameId input now
    rcases setPodridaBets_shape data gameId input now with
      ⟨e, heq⟩ | ⟨game, bets, _, _, _, heq⟩ <;> rw [heq]
  · intro data gameId input roundId now
    rcases addPodridaRound_shape data gameId input roundId now with
      ⟨e, heq⟩ | ⟨game, nextCards, entries, bets, _, _, _, _, heq⟩ <;> rw [heq]
  · intro data gameId now
    rcases finishGame_shape data gameId now with
      ⟨_, heq⟩ | ⟨game, _, _, heq⟩ | ⟨game, _, _, heq⟩ <;> rw [heq]
  · intro data gameId
    rcases deleteOpenGame_shape data gameId with
      ⟨e, heq⟩ | ⟨game, _, _, heq⟩ <;> rw [heq]
  · intro data gameId input roundId now g hg
    rcases addRound_shape data gameId input roundId now with
      ⟨e, heq⟩ | ⟨game, g', hF, _, hid, _, heq⟩
    · rw [heq] at hg; exact Or.inl hg
    · rw [heq] at hg
      rcases mem_replaceGame hg with h | h
      · exact Or.inl h
      · exact Or.inr (h ▸ (hid.trans (findGame_id hF)))
  · intro data gameId input now g hg
    rcases setPodridaBets_shape data gameId input now with
      ⟨e, heq⟩ | ⟨game, bets, hF, _, _, heq⟩
    · rw [heq] at hg; exact Or.inl hg
    · rw [heq] at hg
      rcases mem_replaceGame hg with h | h
      · exact Or.inl h
      · subst h
        have hgid := findGame_id hF
        exact Or.inr hgid
  · intro data gameId input roundId now g hg
    rcases addPodridaRound_shape data gameId input roundId now with
      ⟨e, heq⟩ | ⟨game, nextCards, entries, bets, hF, _, _, _, heq⟩
    · rw [heq] at hg; exact Or.inl hg
    · rw [heq] at hg
      rcases mem_replaceGame hg with h | h
      · exact Or.inl h
      · subst h
        have hgid := findGame_id hF
        exact Or.inr hgid
  · intro data gameId now g hg
    rcases finishGame_shape data gameId now with
      ⟨_, heq⟩ | ⟨game, _, _, heq⟩ | ⟨game, hF, _, heq⟩
    · rw [heq] at hg; exact Or.inl hg
    · rw [heq] at hg; exact Or.inl hg
    · rw [heq] at hg
      rcases mem_replaceGame hg with h | h
      · exact Or.inl h
      · subst h
        have hgid := findGame_id hF
        exact Or.inr hgid
  · intro data gameId input roundId now
    rcases addRound_shape data gameId input roundId now with
      ⟨e, heq⟩ | ⟨game, g', _, _, _, _, heq⟩
    · rw [heq]; exact ⟨rfl, fun i g h _ => h⟩
    · rw [heq]
      exact ⟨replaceGame_length data.games gameId g',
        fun i g h hne => replaceGame_get? data.games gameId g' i g h hne⟩
  · intro data gameId input now
    rcases setPodridaBets_shape data gameId input now with
      ⟨e, heq⟩ | ⟨game, bets, _, _, _, heq⟩
    · rw [heq]; exact ⟨rfl, fun i g h _ => h⟩
    · rw [heq]
      exact ⟨replaceGame_length data.games gameId _,
        fun i g h hne => replaceGame_get? data.games gameId _ i g h hne⟩
  · intro data gameId input roundId now
    rcases addPodridaRound_shape data gameId input roundId now with
      ⟨e, heq⟩ | ⟨game, nextCards, entries, bets, _, _, _, _, heq⟩
    · rw [heq]; exact ⟨rfl, fun i g h _ => h⟩
    · rw [heq]
      exact ⟨replaceGame_length data.games gameId _,
        fun i g h hne => replaceGame_get? data.games gameId _ i g h hne⟩
  · intro data gameId now
    rcases finishGame_shape data gameId now with
      ⟨_, heq⟩ | ⟨game, _, _, heq⟩ | ⟨game, _, _, heq⟩
    · rw [heq]; exact ⟨rfl, fun i g h _ => h⟩
    · rw [heq]; exact ⟨rfl, fun i g h _ => h⟩
    · rw [heq]
      exact ⟨replaceGame_length data.games gameId _,
        fun i g h hne => replaceGame_get? data.games gameId _ i g h hne⟩

/-- A second demo game, used to observe that operations addressed at one
game leave the other game in place. -/
def demoData2 : AppData := ⟨[demoGameC1, demoPodridaGame], [⟨"rp", "Ana", none, "t0"⟩]⟩

/-- C10 witness: finishing `demoGameC1` leaves `recentPlayers` unchanged,
and the non-addressed game at position 1 of the snapshot is afterwards
still exactly `demoPodridaGame`. -/
theorem repository_frame_witness :
    (finishGame demoData2 "g1" "t9").2.recentPlayers = demoData2.recentPlayers ∧
    (demoPodridaGame ∈ demoData2.games ∨ demoPodridaGame.id = "g1") ∧
    (finishGame demoData2 "g1" "t9").2.games.length = demoData2.games.length ∧
    (finishGame demoData2 "g1" "t9").2.games.get? 1 = some demoPodridaGame :=
  ⟨repository_frame.2.2.2.1 demoData2 "g1" "t9",
    repository_frame.2.2.2.2.2.2.2.2.1 demoData2 "g1" "t9" demoPodridaGame
      (by decide),
    (repository_frame.2.2.2.2.2.2.2.2.2.2.2.2 demoData2 "g1" "t9").1,
    (repository_frame.2.2.2.2.2.2.2.2.2.2.2.2 demoData2 "g1" "t9").2 1
      demoPodridaGame rfl (by decide)⟩

/-- C8: `finishGame` finishes an existing open game stamping
`finishedAt = updatedAt = now`, is a no-op on an already finished game
(even with a different timestamp: repeating the call changes nothing),
fails exactly when the id does not exist, and no mutating operation ever
turns a game with a given id from finished back to open. -/
theorem finishGame_idempotent_one_way :
    (∀ (data : AppData) (gameId now : String) (game : Game),
        findGame data.games gameId = some game →
        game.status = GameStatus.opened →
        finishGame data gameId now =
          (Except.ok
              { game with
                  status := GameStatus.finished
                  finishedAt := some now
                  updatedAt := now },
            ⟨replaceGame data.games gameId
                { game with
                    status := GameStatus.finished
                    finishedAt := some now
                    updatedAt := now },
              data.recentPlayers⟩)) ∧
    (∀ (data : AppData) (gameId now : String) (game : Game),
        findGame data.games gameId = some game →
        game.status = GameStatus.finished →
        finishGame data gameId now = (Except.ok game, data)) ∧
    (∀ (data : AppData) (gameId now : String),
        findGame data.games gameId = none →
        finishGame data gameId now = (Except.error RepoError.notFound, data)) ∧
    (∀ (data : AppData) (gameId now now' : String),
        finishGame ((finishGame data gameId now).2) gameId now' =
          finishGame data gameId now) ∧
    (∀ (data : AppData) (gameId : String) (gid : String) (input : RoundInput)
        (roundId now : String),
        (∀ g ∈ data.games, g.id = gid → g.status = GameStatus.finished) →
        ∀ g ∈ (addRound data gameId input roundId now).2.games,
          g.id = gid → g.status = GameStatus.finished) ∧
    (∀ (data : AppData) (gameId gid : String) (input : PodridaBetsInput)
        (now : String),
        (∀ g ∈ data.games, g.id = gid → g.status = GameStatus.finished) →
        ∀ g ∈ (setPodridaBets data gameId input now).2.games,
          g.id = gid → g.status = GameStatus.finished) ∧
    (∀ (data : AppData) (gameId gid : String) (input : PodridaRoundInput)
        (roundId now : String),
        (∀ g ∈ data.games, g.id = gid → g.status = GameStatus.finished) →
        ∀ g ∈ (addPodridaRound data gameId input roundId now).2.games,
          g.id = gid → g.status = GameStatus.finished) ∧
    (∀ (data : AppData) (gameId gid now : String),
        (∀ g ∈ data.games, g.id = gid → g.status = GameStatus.finished) →
        ∀ g ∈ (finishGame data gameId now).2.games,
          g.id = gid → g.status = GameStatus.finished) ∧
    (∀ (data : AppData) (gameId gid : String),
        (∀ g ∈ data.games, g.id = gid → g.status = GameStatus.finished) →
        ∀ g ∈ (deleteOpenGame data gameId).2.games,
          g.id = gid → g.status = GameStatus.finished) := by
  refine ⟨?_, ?_, ?_, ?_, ?_, ?_, ?_, ?_, ?_⟩
  · intro data gameId now game hF hopen
    have h1 : ¬game.status = GameStatus.finished := by simp [hopen]
    simp [finishGame, hF, h1]
  · intro data gameId now game hF hfin
    simp [finishGame, hF, hfin]
  · intro data gameId now hF
    simp [finishGame, hF]
  · intro data gameId now now'
    rcases finishGame_shape data gameId now with
      ⟨hN, heq⟩ | ⟨game, hF, hfin, heq⟩ | ⟨game, hF, hopen, heq⟩
    · rw [heq]
      simp [finishGame, hN]
    · rw [heq]
      simp [finishGame, hF, hfin]
    · rw [heq]
      have hid0 := findGame_id hF
      have hid : ({ game with
          status := GameStatus.finished
          finishedAt := some now
          updatedAt := now } : Game).id = gameId := hid0
      have hFind := findGame_replaceGame hid game hF
      simp [finishGame, hFind]
  · intro data gameId gid input roundId now hfin g hg hid
    rcases addRound_shape data gameId input roundId now with
      ⟨e, heq⟩ | ⟨game, g', hF, hopen, hid', hstat, heq⟩
    · rw [heq] at hg; exact hfin g hg hid
    · rw [heq] at hg
      rcases mem_replaceGame hg with h | h
      · exact hfin g h hid
      · subst h
        have hgm := List.mem_of_find?_eq_some hF
        have : game.id = gid := (hid'.symm.trans hid)
        have hcontra := hfin game hgm this
        rw [hopen] at hcontra
        simp at hcontra
  · intro data gameId gid input now hfin g hg hid
    rcases setPodridaBets_shape data gameId input now with
      ⟨e, heq⟩ | ⟨game, bets, hF, hopen, hB, heq⟩
    · rw [heq] at hg; exact hfin g hg hid
    · rw [heq] at hg
      rcases mem_replaceGame hg with h | h
      · exact hfin g h hid
      · subst h
        have hgm := List.mem_of_find?_eq_some hF
        have hgid : game.id = gid := hid
        have hcontra := hfin game hgm hgid
        rw [hopen] at hcontra
        simp at hcontra
  · intro data gameId gid input roundId now hfin g hg hid
    rcases addPodridaRound_shape data gameId input roundId now with
      ⟨e, heq⟩ | ⟨game, nextCards, entries, bets, hF, hopen, hN, hB, heq⟩
    · rw [heq] at hg; exact hfin g hg hid
    · rw [heq] at hg
      rcases mem_replaceGame hg with h | h
      · exact hfin g h hid
      · subst h
        have hgm := List.mem_of_find?_eq_some hF
        have hgid : game.id = gid := hid
        have hcontra := hfin game hgm hgid
        rw [hopen] at hcontra
        simp at hcontra
  · intro data gameId gid now hfin g hg hid
    rcases finishGame_shape data gameId now with
      ⟨hN, heq⟩ | ⟨game, hF, hfg, heq⟩ | ⟨game, hF, hopen, heq⟩
    · rw [heq] at hg; exact hfin g hg hid
    · rw [heq] at hg; exact hfin g hg hid
    · rw [heq] at hg
      rcases mem_replaceGame hg with h | h
      · exact hfin g h hid
      · subst h; rfl
  · intro data gameId gid hfin g hg hid
    rcases deleteOpenGame_shape data gameId with
      ⟨e, heq⟩ | ⟨game, hF, hopen, heq⟩
    · rw [heq] at hg; exact hfin g hg hid
    · rw [heq] at hg
      exact hfin g (List.mem_filter.1 hg).1 hid

/-- An already-finished demo game. -/
def demoFinishedGame : Game :=
  ⟨"gf", none, GameType.classic, [⟨"a", "Ana", none⟩, ⟨"b", "Beto", none⟩], [],
    GameStatus.finished, "t0", "t5", some "t5", none⟩

/-- A snapshot holding one open and one finished game. -/
def demoData3 : AppData := ⟨[demoGameC1, demoFinishedGame], []⟩

/-- C8 witness: finishing the open demo game stamps it, and finishing the
finished demo game returns it unchanged with the old snapshot. -/
theorem finishGame_idempotent_one_way_witness :
    finishGame demoData3 "g1" "t9" =
      (Except.ok
          { demoGameC1 with
              status := GameStatus.finished
              finishedAt := some "t9"
              updatedAt := "t9" },
        ⟨replaceGame demoData3.games "g1"
            { demoGameC1 with
                status := GameStatus.finished
                finishedAt := some "t9"
                updatedAt := "t9" },
          demoData3.recentPlayers⟩) ∧
    finishGame demoData3 "gf" "t9" = (Except.ok demoFinishedGame, demoData3) :=
  ⟨finishGame_idempotent_one_way.1 demoData3 "g1" "t9" demoGameC1 rfl rfl,
    finishGame_idempotent_one_way.2.1 demoData3 "gf" "t9" demoFinishedGame
      (by decide) rfl⟩

/-! ## `addRound` (C4) -/

/-- Spec-side: the input pairs `addRound` keeps — playerId belongs to the
game and the value is a finite number. -/
def keptPairs (game : Game) (input : RoundInput) : StrMap (Option ℚ) :=
  input.valuesByPlayerId.filter
    (fun kv => (game.players.map Player.id).contains kv.1 && kv.2.isSome)

/-- Spec-side: the entries `addRound` records, one per kept pair:
`totalAfter = currentTotal + value` in `add` mode, `totalAfter = value`
in `set` mode, `delta = totalAfter - currentTotal`, with `currentTotal`
the player's total before the call (0 when absent). -/
def classicEntriesSpec (game : Game) (input : RoundInput) : List RoundEntry :=
  (keptPairs game input).map
    (fun kv =>
      let currentTotal := (getKey (getTotals game) kv.1).getD 0
      let nextTotal :=
        if input.mode = Mode.add then currentTotal + kv.2.getD 0 else kv.2.getD 0
      ⟨kv.1, nextTotal - currentTotal, nextTotal⟩)

/-- The `addRound` entry loop computes exactly the spec-side entries. -/
theorem classicEntry_filterMap (pids : List String) (totals : StrMap ℚ) (mode : Mode) :
    ∀ kvs : StrMap (Option ℚ),
      kvs.filterMap (classicEntry pids totals mode) =
        (kvs.filter (fun kv => pids.contains kv.1 && kv.2.isSome)).map
          (fun kv =>
            let currentTotal := (getKey totals kv.1).getD 0
            let nextTotal :=
              if mode = Mode.add then currentTotal + kv.2.getD 0 else kv.2.getD 0
            ⟨kv.1, nextTotal - currentTotal, nextTotal⟩) := by
  intro kvs
  induction kvs with
  | nil => rfl
  | cons kv rest ih =>
    obtain ⟨k, v⟩ := kv
    cases v with
    | none =>
      by_cases hc : k ∈ pids <;>
        simp [classicEntry, List.filterMap_cons, List.filter_cons, hc, ih]
    | some q =>
      by_cases hc : k ∈ pids <;>
        simp [classicEntry, List.filterMap_cons, List.filter_cons, hc, ih]

/-- C4: on an open classic game, `addRound` fails with the empty-round
error exactly when no valid entry remains, and otherwise appends exactly
one classic round carrying the spec-side entries. -/
theorem addRound_spec (data : AppData) (gameId : String) (input : RoundInput)
    (roundId now : String) (game : Game)
    (hF : findGame data.games gameId = some game)
    (hopen : game.status = GameStatus.opened)
    (htype : getGameType game = GameType.classic) :
    (classicEntriesSpec game input = [] →
      addRound data gameId input roundId now =
        (Except.error RepoError.noEntries, data)) ∧
    (classicEntriesSpec game input ≠ [] →
      addRound data gameId input roundId now =
        (Except.ok
            { game with
                rounds := game.rounds ++
                  [⟨roundId, now, input.mode, classicEntriesSpec game input,
                    GameType.classic, none, []⟩],
                updatedAt := now },
          ⟨replaceGame data.games gameId
              { game with
                  rounds := game.rounds ++
                    [⟨roundId, now, input.mode, classicEntriesSpec game input,
                      GameType.classic, none, []⟩],
                  updatedAt := now },
            data.recentPlayers⟩)) := by
  have h1 : ¬game.status = GameStatus.finished := by simp [hopen]
  have hE :
      input.valuesByPlayerId.filterMap
          (classicEntry (game.players.map Player.id) (getTotals game) input.mode) =
        classicEntriesSpec game input := by
    rw [classicEntry_filterMap]
    rfl
  constructor
  · intro hnil
    simp [addRound, hF, h1, htype, hE, hnil]
  · intro hne
    simp [addRound, hF, h1, htype, hE, hne]

/-- A fresh classic game with zero totals, for the C4 round-trip. -/
def demoFreshGame : Game :=
  ⟨"gc", none, GameType.classic, [⟨"p1", "Ana", none⟩, ⟨"p2", "Beto", none⟩], [],
    GameStatus.opened, "t0", "t0", none, none⟩

/-- Snapshot holding only the fresh classic game. -/
def demoFreshData : AppData := ⟨[demoFreshGame], []⟩

/-- First round input of the C4 round-trip: `set` mode, `{p1 ↦ 23}`. -/
def roundIn1 : RoundInput := ⟨Mode.set, [("p1", some 23)]⟩

/-- Second round input of the C4 round-trip: `add` mode, `{p1 ↦ 5}`. -/
def roundIn2 : RoundInput := ⟨Mode.add, [("p1", some 5)]⟩

/-- The round recorded by the first C4 call: `delta = totalAfter = 23`. -/
def round1Lit : Round :=
  ⟨"r1", "t1", Mode.set, [⟨"p1", 23, 23⟩], GameType.classic, none, []⟩

/-- The fresh game after the first C4 call. -/
def game1Lit : Game := { demoFreshGame with rounds := [round1Lit], updatedAt := "t1" }

/-- The snapshot after the first C4 call. -/
def data1Lit : AppData := ⟨[game1Lit], []⟩

/-- The round recorded by the second C4 call: `delta = 5`,
`totalAfter = 28`. -/
def round2Lit : Round :=
  ⟨"r2", "t2", Mode.add, [⟨"p1", 5, 28⟩], GameType.classic, none, []⟩

/-- The game after the second C4 call. -/
def game2Lit : Game := { game1Lit with rounds := [round1Lit, round2Lit], updatedAt := "t2" }

/-- C4 witness: the round-trip of the claim.  `addRound` in `set` mode
with `{p1 ↦ 23}` on the fresh game records `delta = 23, totalAfter = 23`;
a subsequent `addRound` in `add` mode with `{p1 ↦ 5}` on the resulting
snapshot records `delta = 5, totalAfter = 28`. -/
theorem addRound_spec_witness :
    addRound demoFreshData "gc" roundIn1 "r1" "t1" = (Except.ok game1Lit, data1Lit) ∧
    addRound data1Lit "gc" roundIn2 "r2" "t2" =
      (Except.ok game2Lit, ⟨[game2Lit], []⟩) := by
  have hE1 : classicEntriesSpec demoFreshGame roundIn1 = [⟨"p1", 23, 23⟩] := by
    norm_num [classicEntriesSpec, keptPairs, getTotals, getKey, setKey,
      demoFreshGame, roundIn1]
  have hE2 : classicEntriesSpec game1Lit roundIn2 = [⟨"p1", 5, 28⟩] := by
    norm_num [classicEntriesSpec, keptPairs, getTotals, getKey, setKey,
      game1Lit, round1Lit, demoFreshGame, roundIn2]
  have h1 := (addRound_spec demoFreshData "gc" roundIn1 "r1" "t1" demoFreshGame
    rfl rfl rfl).2 (by rw [hE1]; simp)
  have h2 := (addRound_spec data1Lit "gc" roundIn2 "r2" "t2" game1Lit
    rfl rfl rfl).2 (by rw [hE2]; simp)
  rw [hE1] at h1
  rw [hE2] at h2
  constructor
  · rw [h1]
    refine Prod.ext ?_ ?_
    · exact congrArg Except.ok (by decide)
    · decide
  · rw [h2]
    refine Prod.ext ?_ ?_
    · exact congrArg Except.ok (by decide)
    · decide

/-! ## `setPodridaBets` (C7) -/

/-- Spec-side: a player whose bet in the input is missing, non-finite or
not an integer. -/
def badBet (input : StrMap (Option ℚ)) (p : Player) : Bool :=
  match numField input p.id with
  | some b => if b.den = 1 then false else true
  | none => true

/-- The `setPodridaBets` player loop errors on the first player (in game
order) with a bad bet, and otherwise accumulates every player's validated
bet in order. -/
theorem collectBets_spec (input : StrMap (Option ℚ)) :
    ∀ (players : List Player) (acc : StrMap ℚ),
      collectBets input players acc =
        match players.find? (badBet input) with
        | some p => Except.error (RepoError.betNotInteger p.name)
        | none =>
          Except.ok (players.foldl
            (fun m p => setKey m p.id ((numField input p.id).getD 0)) acc) := by
  intro players
  induction players with
  | nil => intro acc; rfl
  | cons p rest ih =>
    intro acc
    cases hn : numField input p.id with
    | none =>
      rw [List.find?_cons_of_pos _ (by simp [badBet, hn])]
      simp [collectBets, hn]
    | some b =>
      by_cases hd : b.den = 1
      · rw [List.find?_cons_of_neg _ (by simp [badBet, hn, hd])]
        simp [collectBets, hn, hd, ih]
      · rw [List.find?_cons_of_pos _ (by simp [badBet, hn, hd])]
        simp [collectBets, hn, hd]

/-- C7: on an open podrida game whose sequence is not exhausted,
`setPodridaBets` fails naming the first player (in game order) without a
finite integer bet, and when every player has one it replaces the pending
bets wholesale with the validated per-player bets, leaving the rest of
the game — in particular `rounds` — unchanged and creating no round. -/
theorem setPodridaBets_spec (data : AppData) (gameId : String)
    (input : PodridaBetsInput) (now : String) (game : Game)
    (hF : findGame data.games gameId = some game)
    (hopen : game.status = GameStatus.opened)
    (htype : getGameType game = GameType.podrida)
    (hseq : getNextPodridaCards game ≠ none) :
    (∀ p, game.players.find? (badBet input.betsByPlayerId) = some p →
      setPodridaBets data gameId input now =
        (Except.error (RepoError.betNotInteger p.name), data)) ∧
    (game.players.find? (badBet input.betsByPlayerId) = none →
      setPodridaBets data gameId input now =
        (Except.ok
            { game with
                updatedAt := now
                podridaState := some ⟨game.players.foldl
                  (fun m p =>
                    setKey m p.id ((numField input.betsByPlayerId p.id).getD 0)) []⟩ },
          ⟨replaceGame data.games gameId
              { game with
                  updatedAt := now
                  podridaState := some ⟨game.players.foldl
                    (fun m p =>
                      setKey m p.id ((numField input.betsByPlayerId p.id).getD 0)) []⟩ },
            data.recentPlayers⟩)) := by
  have h1 : ¬game.status = GameStatus.finished := by simp [hopen]
  obtain ⟨c, hc⟩ : ∃ c, getNextPodridaCards game = some c := by
    cases h : getNextPodridaCards game with
    | none => exact absurd h hseq
    | some c => exact ⟨c, rfl⟩
  have hcb := collectBets_spec input.betsByPlayerId game.players []
  constructor
  · intro p hp
    rw [hp] at hcb
    simp [setPodridaBets, hF, h1, htype, hc, hcb]
  · intro hnone
    rw [hnone] at hcb
    simp [setPodridaBets, hF, h1, htype, hc, hcb]

/-- A two-player open podrida game with no pending bets. -/
def demoPodrida2 : Game :=
  ⟨"gq", none, GameType.podrida, [⟨"a", "Ana", none⟩, ⟨"b", "Beto", none⟩], [],
    GameStatus.opened, "t0", "t0", none, some ⟨[]⟩⟩

/-- Snapshot holding only `demoPodrida2`. -/
def demoPodridaData : AppData := ⟨[demoPodrida2], []⟩

/-- C7 witness: a bets map missing player `b` fails naming Beto; a
complete integer bets map succeeds, storing exactly those bets as pending
and leaving the game's rounds unchanged. -/
theorem setPodridaBets_spec_witness :
    setPodridaBets demoPodridaData "gq" ⟨[("a", some 3)]⟩ "t1" =
      (Except.error (RepoError.betNotInteger "Beto"), demoPodridaData) ∧
    setPodridaBets demoPodridaData "gq" ⟨[("a", some 2), ("b", some 0)]⟩ "t1" =
      (Except.ok
          { demoPodrida2 with
              updatedAt := "t1"
              podridaState := some ⟨[("a", 2), ("b", 0)]⟩ },
        ⟨[{ demoPodrida2 with
              updatedAt := "t1"
              podridaState := some ⟨[("a", 2), ("b", 0)]⟩ }], []⟩) := by
  constructor
  · exact (setPodridaBets_spec demoPodridaData "gq" ⟨[("a", some 3)]⟩ "t1"
      demoPodrida2 rfl rfl rfl (by decide)).1 ⟨"b", "Beto", none⟩ (by decide)
  · have h := (setPodridaBets_spec demoPodridaData "gq"
      ⟨[("a", some 2), ("b", some 0)]⟩ "t1" demoPodrida2 rfl rfl rfl
      (by decide)).2 (by decide)
    rw [h]
    refine Prod.ext ?_ ?_
    · exact congrArg Except.ok (by decide)
    · decide

/-! ## `addPodridaRound` (C5) -/

/-- Spec-side: the problem `addPodridaRound` reports for one player —
first the pending-bet check (missing / non-finite / non-integer), then
the finite-total check; `none` when the player passes both. -/
def podridaProblem (pending : StrMap ℚ) (totals : StrMap (Option ℚ))
    (p : Player) : Option RepoError :=
  match getKey pending p.id with
  | none => some (RepoError.missingPendingBet p.name)
  | some b =>
    if b.den = 1 then
      match numField totals p.id with
      | none => some (RepoError.missingTotal p.name)
      | some _ => none
    else some (RepoError.missingPendingBet p.name)

/-- The `addPodridaRound` player loop errors with the first problem found
in game-player order, and otherwise pushes, per player in order, the
entry `⟨p, total - current, total⟩` and the player's resolved bet. -/
theorem podridaEntriesLoop_spec (pending : StrMap ℚ) (totals : StrMap (Option ℚ))
    (currentTotals : StrMap ℚ) :
    ∀ (players : List Player) (accE : List RoundEntry) (accB : StrMap ℚ),
      podridaEntriesLoop pending totals currentTotals players accE accB =
        match players.findSome? (podridaProblem pending totals) with
        | some e => Except.error e
        | none =>
          Except.ok
            (accE ++ players.map (fun p =>
                ⟨p.id, (numField totals p.id).getD 0 - (getKey currentTotals p.id).getD 0,
                  (numField totals p.id).getD 0⟩),
              players.foldl
                (fun m p => setKey m p.id ((getKey pending p.id).getD 0)) accB) := by
  intro players
  induction players with
  | nil => intro accE accB; simp [podridaEntriesLoop]
  | cons p rest ih =>
    intro accE accB
    rw [List.findSome?_cons]
    cases hp : getKey pending p.id with
    | none => simp [podridaEntriesLoop, podridaProblem, hp]
    | some b =>
      by_cases hd : b.den = 1
      · cases ht : numField totals p.id with
        | none => simp [podridaEntriesLoop, podridaProblem, hp, hd, ht]
        | some tv =>
          simp only [podridaEntriesLoop, podridaProblem, hp, hd, ht, if_pos, ih]
          cases rest.findSome? (podridaProblem pending totals) with
          | some e => simp
          | none => simp [hp, ht]
      · simp [podridaEntriesLoop, podridaProblem, hp, hd]

/-- C5: on an open podrida game whose sequence is not exhausted,
`addPodridaRound` fails with the first per-player problem in game order
(`missingPendingBet` before `missingTotal` per player); when every player
has a pending integer bet and a finite input total it appends exactly one
`set`-mode podrida round whose `cardsCount` is the sequence engine's next
value, whose `betsByPlayerId` are the resolved pending bets, and whose
entry per player has `totalAfter` the input total and `delta` that total
minus the player's current total; the pending bets are cleared. -/
theorem addPodridaRound_spec (data : AppData) (gameId : String)
    (input : PodridaRoundInput) (roundId now : String) (game : Game)
    (nextCards : Int)
    (hF : findGame data.games gameId = some game)
    (hopen : game.status = GameStatus.opened)
    (htype : getGameType game = GameType.podrida)
    (hN : getNextPodridaCards game = some nextCards) :
    (∀ e, game.players.findSome?
        (podridaProblem (pendingBets game) input.totalsByPlayerId) = some e →
      addPodridaRound data gameId input roundId now = (Except.error e, data)) ∧
    (game.players.findSome?
        (podridaProblem (pendingBets game) input.totalsByPlayerId) = none →
      addPodridaRound data gameId input roundId now =
        (Except.ok
            { game with
                rounds := game.rounds ++
                  [⟨roundId, now, Mode.set,
                    game.players.map (fun p =>
                      ⟨p.id,
                        (numField input.totalsByPlayerId p.id).getD 0 -
                          (getKey (getTotals game) p.id).getD 0,
                        (numField input.totalsByPlayerId p.id).getD 0⟩),
                    GameType.podrida, some (nextCards : ℚ),
                    game.players.foldl
                      (fun m p => setKey m p.id ((getKey (pendingBets game) p.id).getD 0))
                      []⟩],
                updatedAt := now
                podridaState := some ⟨[]⟩ },
          ⟨replaceGame data.games gameId
              { game with
                  rounds := game.rounds ++
                    [⟨roundId, now, Mode.set,
                      game.players.map (fun p =>
                        ⟨p.id,
                          (numField input.totalsByPlayerId p.id).getD 0 -
                            (getKey (getTotals game) p.id).getD 0,
                          (numField input.totalsByPlayerId p.id).getD 0⟩),
                      GameType.podrida, some (nextCards : ℚ),
                      game.players.foldl
                        (fun m p =>
                          setKey m p.id ((getKey (pendingBets game) p.id).getD 0))
                        []⟩],
                  updatedAt := now
                  podridaState := some ⟨[]⟩ },
            data.recentPlayers⟩)) := by
  have h1 : ¬game.status = GameStatus.finished := by simp [hopen]
  have hpl := podridaEntriesLoop_spec (pendingBets game) input.totalsByPlayerId
    (getTotals game) game.players [] []
  constructor
  · intro e he
    rw [he] at hpl
    simp [addPodridaRound, hF, h1, htype, hN, hpl]
  · intro hnone
    rw [hnone] at hpl
    simp only [List.nil_append] at hpl
    simp [addPodridaRound, hF, h1, htype, hN, hpl]

/-- `demoPodrida2` with pending bets `{a ↦ 1, b ↦ 0}` recorded. -/
def demoPodridaBetsSet : Game :=
  { demoPodrida2 with podridaState := some ⟨[("a", 1), ("b", 0)]⟩ }

/-- Snapshot holding only `demoPodridaBetsSet`. -/
def demoPodridaBetsData : AppData := ⟨[demoPodridaBetsSet], []⟩

/-- Totals input of the C5 witness: `{a ↦ 10, b ↦ 5}`. -/
def potIn : PodridaRoundInput := ⟨[("a", some 10), ("b", some 5)]⟩

/-- The podrida round recorded by the C5 witness call: cards 3, the
resolved bets, per-player `totalAfter` the input total and `delta` the
difference with the previous total 0. -/
def podridaRound1 : Round :=
  ⟨"r1", "t1", Mode.set, [⟨"a", 10, 10⟩, ⟨"b", 5, 5⟩], GameType.podrida,
    some 3, [("a", 1), ("b", 0)]⟩

/-- The game after the C5 witness call: round appended, pending cleared. -/
def demoPodridaAfter : Game :=
  { demoPodridaBetsSet with
      rounds := [podridaRound1]
      updatedAt := "t1"
      podridaState := some ⟨[]⟩ }

/-- C5 witness: without pending bets the call fails naming Ana (first
player); with bets but a missing total it fails naming Beto; with bets
and totals it appends exactly the expected round and clears the pending
bets. -/
theorem addPodridaRound_spec_witness :
    addPodridaRound demoPodridaData "gq" potIn "r1" "t1" =
      (Except.error (RepoError.missingPendingBet "Ana"), demoPodridaData) ∧
    addPodridaRound demoPodridaBetsData "gq" ⟨[("a", some 10)]⟩ "r1" "t1" =
      (Except.error (RepoError.missingTotal "Beto"), demoPodridaBetsData) ∧
    addPodridaRound demoPodridaBetsData "gq" potIn "r1" "t1" =
      (Except.ok demoPodridaAfter, ⟨[demoPodridaAfter], []⟩) := by
  refine ⟨?_, ?_, ?_⟩
  · exact (addPodridaRound_spec demoPodridaData "gq" potIn "r1" "t1" demoPodrida2 3
      rfl rfl rfl (by decide)).1 (RepoError.missingPendingBet "Ana") (by decide)
  · exact (addPodridaRound_spec demoPodridaBetsData "gq" ⟨[("a", some 10)]⟩ "r1" "t1"
      demoPodridaBetsSet 3 rfl rfl rfl (by decide)).1
      (RepoError.missingTotal "Beto") (by decide)
  · have h := (addPodridaRound_spec demoPodridaBetsData "gq" potIn "r1" "t1"
      demoPodridaBetsSet 3 rfl rfl rfl (by decide)).2 (by decide)
    rw [h]
    refine Prod.ext (congrArg Except.ok ?_) ?_
    · norm_num [demoPodridaAfter, podridaRound1, demoPodridaBetsSet, demoPodrida2,
        potIn, getTotals, getKey, setKey, numField, pendingBets]
      all_goals decide
    · norm_num [replaceGame, demoPodridaAfter, podridaRound1, demoPodridaBetsSet,
        demoPodrida2, potIn, getTotals, getKey, setKey, numField, pendingBets,
        demoPodridaBetsData]
      all_goals decide

/-! ## `createGame` (C6) -/

/-- Demo id generator for `createGame` examples. -/
def mkDemoId (k : Nat) : String := String.mk ('p' :: List.replicate k 'x')

/-- Twenty distinct player names (for `getPodridaMaxCards 20 = 2 < 3`). -/
def players20 : List NewPlayerInput :=
  [⟨"A", none⟩, ⟨"B", none⟩, ⟨"C", none⟩, ⟨"D", none⟩, ⟨"E", none⟩,
   ⟨"F", none⟩, ⟨"G", none⟩, ⟨"H", none⟩, ⟨"I", none⟩, ⟨"J", none⟩,
   ⟨"K", none⟩, ⟨"L", none⟩, ⟨"M", none⟩, ⟨"N", none⟩, ⟨"O", none⟩,
   ⟨"P", none⟩, ⟨"Q", none⟩, ⟨"R", none⟩, ⟨"S", none⟩, ⟨"T", none⟩]

/-- C6: `createGame` fails with the too-few-players error when fewer than
2 players remain after normalization (trimming, whitespace collapsing,
empty-name discarding and case-insensitive deduplication, all embodied in
`toPlayers`); for podrida it additionally fails when
`floor(48 / playerCount) < 3`; otherwise it succeeds, prepending an open
game with empty rounds over exactly the normalized players.  Concretely:
20 players make a podrida game rejected (`maxCards = 2`); `" Ana "`,
`"ana"`, `""` collapse to one player and are rejected; two distinct valid
players succeed with an open, round-less game. -/
theorem createGame_validation :
    (∀ (data : AppData) (input : CreateGameInput) (mkPlayerId : Nat → String)
        (gameId : String) (mkRecentId : Nat → String) (now : String),
        (toPlayers input.players mkPlayerId).length < 2 →
        createGame data input mkPlayerId gameId mkRecentId now =
          (Except.error RepoError.tooFewPlayers, data)) ∧
    (∀ (data : AppData) (input : CreateGameInput) (mkPlayerId : Nat → String)
        (gameId : String) (mkRecentId : Nat → String) (now : String),
        ¬(toPlayers input.players mkPlayerId).length < 2 →
        input.type = GameType.podrida →
        getPodridaMaxCards ((toPlayers input.players mkPlayerId).length : Int) < 3 →
        createGame data input mkPlayerId gameId mkRecentId now =
          (Except.error RepoError.podridaTooFewCards, data)) ∧
    (∀ (data : AppData) (input : CreateGameInput) (mkPlayerId : Nat → String)
        (gameId : String) (mkRecentId : Nat → String) (now : String),
        ¬(toPlayers input.players mkPlayerId).length < 2 →
        ¬(input.type = GameType.podrida ∧
          getPodridaMaxCards ((toPlayers input.players mkPlayerId).length : Int) < 3) →
        ∃ game, createGame data input mkPlayerId gameId mkRecentId now =
            (Except.ok game,
              ⟨game :: data.games,
                upsertRecentPlayers data.recentPlayers
                  (toPlayers input.players mkPlayerId) mkRecentId now⟩) ∧
          game.status = GameStatus.opened ∧ game.rounds = [] ∧
          game.players = toPlayers input.players mkPlayerId) ∧
    createGame emptyData ⟨none, GameType.podrida, players20⟩ mkDemoId "g" mkDemoId "t" =
      (Except.error RepoError.podridaTooFewCards, emptyData) ∧
    createGame emptyData
        ⟨none, GameType.classic, [⟨" Ana ", none⟩, ⟨"ana", none⟩, ⟨"", none⟩]⟩
        mkDemoId "g" mkDemoId "t" =
      (Except.error RepoError.tooFewPlayers, emptyData) ∧
    (createGame emptyData ⟨none, GameType.classic, [⟨"Ana", none⟩, ⟨"Beto", none⟩]⟩
        mkDemoId "g" mkDemoId "t").1 =
      Except.ok
        ⟨"g", none, GameType.classic, [⟨"p", "Ana", none⟩, ⟨"px", "Beto", none⟩],
          [], GameStatus.opened, "t", "t", none, none⟩ := by
  refine ⟨?_, ?_, ?_, ?_, ?_, ?_⟩
  · intro data input mkPlayerId gameId mkRecentId now h
    simp [createGame, h]
  · intro data input mkPlayerId gameId mkRecentId now h1 h2 h3
    have hc : input.type = GameType.podrida ∧
        getPodridaMaxCards ((toPlayers input.players mkPlayerId).length : Int) < 3 :=
      ⟨h2, h3⟩
    simp [createGame, h1, hc]
  · intro data input mkPlayerId gameId mkRecentId now h1 h2
    refine ⟨{
        id := gameId
        name := input.name.bind (fun n => if n.trim = "" then none else some n.trim)
        type := if input.type = GameType.podrida then GameType.podrida
          else GameType.classic
        players := toPlayers input.players mkPlayerId
        rounds := []
        status := GameStatus.opened
        createdAt := now
        updatedAt := now
        finishedAt := none
        podridaState :=
          if input.type = GameType.podrida then some ⟨[]⟩ else none },
      by simp [createGame, h1, h2], rfl, rfl, rfl⟩
  · have h1 : (toPlayers players20 mkDemoId).length < 2 ↔ False := by decide
    have h2 : getPodridaMaxCards ((toPlayers players20 mkDemoId).length : Int) < 3 := by
      decide
    simp [createGame, h1, h2]
  · have h : (toPlayers [⟨" Ana ", none⟩, ⟨"ana", none⟩, ⟨"", none⟩] mkDemoId).length
        < 2 := by decide
    simp [createGame, h]
  · have h1 : (toPlayers [⟨"Ana", none⟩, ⟨"Beto", none⟩] mkDemoId).length < 2 ↔ False := by
      decide
    have h2 : toPlayers [⟨"Ana", none⟩, ⟨"Beto", none⟩] mkDemoId =
        [⟨"p", "Ana", none⟩, ⟨"px", "Beto", none⟩] := by decide
    simp [createGame, h1, h2]

/-- C6 witness: applying the validation theorem at the concrete dedup
example (one valid player after normalization) and at the 20-player
podrida example. -/
theorem createGame_validation_witness :
    createGame emptyData
        ⟨none, GameType.classic, [⟨" Ana ", none⟩, ⟨"ana", none⟩, ⟨"", none⟩]⟩
        (fun _ => "q") "g2" (fun _ => "r") "t2" =
      (Except.error RepoError.tooFewPlayers, emptyData) ∧
    createGame emptyData ⟨none, GameType.podrida, players20⟩ (fun _ => "q") "g2"
        (fun _ => "r") "t2" =
      (Except.error RepoError.podridaTooFewCards, emptyData) :=
  ⟨createGame_validation.1 emptyData
      ⟨none, GameType.classic, [⟨" Ana ", none⟩, ⟨"ana", none⟩, ⟨"", none⟩]⟩
      (fun _ => "q") "g2" (fun _ => "r") "t2" (by decide),
    createGame_validation.2.1 emptyData ⟨none, GameType.podrida, players20⟩
      (fun _ => "q") "g2" (fun _ => "r") "t2" (by decide) rfl (by decide)⟩
